import Mathlib

/-!
Verification of the image-PPT-to-editable-PPT reconstruction pipeline
(`backend/services/ppt_converter`) against its natural-language specification.

Shallow-embedding conventions used throughout this file:

- Python integers become `Nat` (all quantities involved are non-negative);
  Python floats become exact rationals `ℚ`, and `int(x)` on a non-negative
  float becomes the floor.
- Python strings become Lean `String`s: both are sequences of Unicode code
  points, and Python `len` agrees with `String.length`.
- Fallible calls (network, disk) are modelled with `Except`: an exception
  raised in the Python code is an `Except.error` value, and code without a
  `try/except` propagates it monadically, exactly as the interpreter would.
- External collaborators that are not part of the repository (the Baidu OCR
  HTTP endpoint, the DeepSeek completion endpoint, OpenCV's `inpaint`,
  `difflib.SequenceMatcher.ratio`, the visual stroke/colour feature code)
  enter as explicit function parameters, constrained only by the contracts
  the claims need; every function of the repository itself is translated
  definition-by-definition from the source.
-/

/-- RGB colour triple, one byte per channel (`models.TextBlock.color`). -/
abbrev Color := Nat × Nat × Nat

/-- Bounding box `(x, y, width, height)` in source-image pixel space
(`models.TextBlock.bbox`). -/
abbrev BBox := Nat × Nat × Nat × Nat

/-- One recognised text run (`models.TextBlock`, a Python dataclass).
Default field values are the dataclass defaults. -/
structure TextBlock where
  text : String
  bbox : BBox
  confidence : ℚ := 0
  font_size : Nat := 12
  font_category : String := "heiti"
  font_weight : String := "Regular"
  font_name : String := "Noto Sans SC"
  color : Color := (0, 0, 0)
deriving DecidableEq, Repr

/-- Deck-level outcome (`models.ConversionResult`); the output path is left
out of the model (the output file exists exactly when the run returns
`Except.ok`). -/
structure ConversionResult where
  success : Bool
  slides_count : Nat := 0
  text_blocks_count : Nat := 0
  error_message : Option String := none
deriving DecidableEq, Repr

/-- Font-size estimate from `utils/font_utils.py` (`estimate_font_size_pt`):
`int(bbox_height / image_height * slide_height_pt)` clamped to `[8, 144]`,
with a guard value of 12 for a non-positive image height.  The float
computation `int(bh / ih * s)` is embedded as the exact floor
`bh * s / ih` (natural division). -/
def estimate_font_size_pt (bbox_height image_height slide_height_pt : Nat) : Nat :=
  if image_height = 0 then 12
  else max 8 (min (bbox_height * slide_height_pt / image_height) 144)

/-- Display-name table from `utils/font_utils.py` (`FONT_DISPLAY_NAMES`). -/
def FONT_DISPLAY_NAMES : List (String × String) :=
  [("heiti", "Noto Sans SC"), ("songti", "Noto Serif SC"), ("kaiti", "LXGW WenKai"),
   ("yuanti", "Noto Sans SC"), ("fangsong", "Noto Serif SC"), ("other", "Noto Sans SC")]

/-- Lookup in `FONT_DISPLAY_NAMES` with the source's `"Noto Sans SC"` default
(`get_font_display_name`). -/
def get_font_display_name (category : String) : String :=
  ((FONT_DISPLAY_NAMES.find? (fun p => p.1 == category)).map Prod.snd).getD "Noto Sans SC"

/-- Result record of `FontMapper.map_font` (`font_mapper.FontMapping`); the
`font_path` field is omitted (it is a filesystem lookup with no bearing on
any claim). -/
structure FontMapping where
  category : String
  weight : String
  font_name : String
  color : Color
  font_size : Nat
deriving DecidableEq, Repr

/-- Title threshold from `FontMapper.TITLE_FONT_SIZE_THRESHOLD`. -/
def TITLE_FONT_SIZE_THRESHOLD : Nat := 24

/-- `FontMapper.map_font` (`font_mapper.py`): the font size is computed
first, the category is chosen purely by comparing that size against the
title threshold, and the visual feature code is consulted only for the
weight and the colour.  The OpenCV-based weight estimator
(`FontClassifier.estimate_font_weight`) and colour extractor
(`extract_text_color`) are external image-processing collaborators and
enter as parameters over an abstract crop type. -/
def map_font {Crop : Type} (estimateWeight : Crop → String) (extractColor : Crop → Color)
    (text_image : Crop) (bbox_height image_height : Nat) : FontMapping :=
  let font_size := estimate_font_size_pt bbox_height image_height 540
  let category := if TITLE_FONT_SIZE_THRESHOLD ≤ font_size then "heiti" else "songti"
  { category := category
    weight := estimateWeight text_image
    font_name := get_font_display_name category
    color := extractColor text_image
    font_size := font_size }

/-- Python regex `\s` (the common members; the exotic Unicode space
characters are not exercised by any claim or counterexample). -/
def pyIsSpace (c : Char) : Bool :=
  c.toNat = 0x20 || c.toNat = 0x9 || c.toNat = 0xa || c.toNat = 0xd ||
  c.toNat = 0xc || c.toNat = 0xb

/-- CJK unified-ideograph test used throughout the source:
`'一' <= c <= '鿿'`. -/
def isCJK (c : Char) : Bool := 0x4e00 ≤ c.toNat && c.toNat ≤ 0x9fff

/-- Modelled from Python's `str.isalpha` (the Unicode `Alphabetic`
property), restricted to the BMP subsets this development touches:
ASCII letters, Latin-1 letters (excluding the `×`/`÷` signs), Greek,
Hiragana, Katakana, and the CJK unified ideographs. -/
def pyIsAlpha (c : Char) : Bool :=
  (0x41 ≤ c.toNat && c.toNat ≤ 0x5a) || (0x61 ≤ c.toNat && c.toNat ≤ 0x7a) ||
  (0xc0 ≤ c.toNat && c.toNat ≤ 0xff && c.toNat != 0xd7 && c.toNat != 0xf7) ||
  (0x391 ≤ c.toNat && c.toNat ≤ 0x3a9 && c.toNat != 0x3a2) ||
  (0x3b1 ≤ c.toNat && c.toNat ≤ 0x3c9) ||
  (0x3041 ≤ c.toNat && c.toNat ≤ 0x3096) ||
  (0x30a1 ≤ c.toNat && c.toNat ≤ 0x30fa) ||
  (0x4e00 ≤ c.toNat && c.toNat ≤ 0x9fff)

/-- Modelled from Python's `str.isdigit`, restricted to the ASCII digits
(the only digits produced by the LLM completion or examined by the width
estimator in any claim). -/
def pyIsDigit (c : Char) : Bool := 0x30 ≤ c.toNat && c.toNat ≤ 0x39

/-- Python's `c.isalnum()` for a single character, over the same subsets. -/
def pyIsAlnum (c : Char) : Bool := pyIsAlpha c || pyIsDigit c

/-- Python's `str.strip()`: drop leading and trailing whitespace. -/
def pyStrip (s : String) : String :=
  String.mk (((s.data.dropWhile pyIsSpace).reverse.dropWhile pyIsSpace).reverse)

/-- Code points of the literal characters of `SYMBOL_ONLY_PATTERN`
(`baidu_ocr.py`): ASCII punctuation plus the listed bullet, arrow, suit and
dash glyphs (byte-for-byte from the source's character class). -/
def symbolCodes : List Nat :=
  [0x2e, 0x2c, 0x3b, 0x3a, 0x21, 0x3f, 0x2d, 0x5f, 0x3d, 0x2b, 0x2a, 0x2f,
   0x5c, 0x7c, 0x40, 0x23, 0x24, 0x25, 0x5e, 0x26, 0x28, 0x29, 0x5b, 0x5d,
   0x7b, 0x7d, 0x3c, 0x3e, 0x7e, 0x60, 0x27, 0x22,
   0x25cf, 0x25cb, 0x25c6, 0x25c7, 0x25a0, 0x25a1, 0x25b2, 0x25b3, 0x25bc,
   0x25bd, 0x2605, 0x2606, 0x2192, 0x2190, 0x2191, 0x2193, 0x2194, 0x2195,
   0x2660, 0x2663, 0x2665, 0x2666, 0x2022, 0xb7, 0x2026, 0x2014, 0x2013]

/-- `SYMBOL_ONLY_PATTERN.match(text)`: the whole string is a non-empty run
of whitespace and listed symbol characters. -/
def symbol_only (s : String) : Bool :=
  s.length != 0 && s.data.all (fun c => pyIsSpace c || symbolCodes.contains c.toNat)

/-- `_is_valid_text` from `baidu_ocr.py`: rejects blank runs, symbol-only
runs, any single non-CJK character, and 1-CJK-character or 2-character runs
with confidence below 0.5. -/
def is_valid_text (text : String) (confidence : ℚ) : Bool :=
  if pyStrip text = "" then false
  else
    let t := pyStrip text
    if symbol_only t then false
    else if t.length = 1 then
      if t.data.all isCJK then decide (mkRat 1 2 ≤ confidence) else false
    else if t.length = 2 then decide (mkRat 1 2 ≤ confidence)
    else true

/-- One item of the provider's `words_result` array: recognised text, its
`location` box, and the `probability.average` confidence. -/
structure OcrItem where
  words : String
  location : BBox
  probability : ℚ
deriving DecidableEq, Repr

/-- Coordinate restoration in `BaiduOCRClient.recognize`:
`int(coord / scale_factor)` for a non-negative coordinate and a positive
scale, computed over the scale's reduced numerator and denominator so that
the definition evaluates by kernel reduction; the bridging lemma
`restore_coord_eq_floor` below identifies it with `⌊coord / scale⌋`. -/
def restore_coord (c : Nat) (scale : ℚ) : Nat :=
  c * scale.den / scale.num.toNat

/-- Coordinate restoration applied to the four `location` fields. -/
def restore_bbox (loc : BBox) (scale : ℚ) : BBox :=
  (restore_coord loc.1 scale, restore_coord loc.2.1 scale,
   restore_coord loc.2.2.1 scale, restore_coord loc.2.2.2 scale)

/-- Post-filtering loop of `BaiduOCRClient.recognize` (`baidu_ocr.py`).
Token acquisition, transport and image downscaling are external; the loop
takes the provider's items, drops those below the confidence threshold or
failing `_is_valid_text`, restores the coordinates through the downscale
factor, and keeps the provider's order. -/
def recognize_filter (items : List OcrItem) (confidence_threshold : ℚ)
    (scale_factor : ℚ) : List TextBlock :=
  items.filterMap (fun item =>
    if item.probability < confidence_threshold then none
    else if is_valid_text item.words item.probability = false then none
    else some { text := item.words
                bbox := restore_bbox item.location scale_factor
                confidence := item.probability })

/-- Claim-side notion of a purely punctuation/symbol run, following the
claim's own parenthetical definition: non-empty, with no alphanumeric and
no CJK character. -/
def spec_noise_run (s : String) : Bool :=
  s.length != 0 && s.data.all (fun c => !(pyIsAlnum c || isCJK c))

/-- Concrete `words_result` item (a genuine four-character CJK run) used by
the C4 witness. -/
def c4item : OcrItem :=
  { words := "人工智能", location := (0, 0, 120, 40), probability := mkRat 9 10 }

/-- The block `recognize_filter` produces from `c4item` at scale 1. -/
def c4block : TextBlock :=
  { text := "人工智能", bbox := (0, 0, 120, 40), confidence := mkRat 9 10 }

/-- Concrete symbol-only run (three `×` multiplication signs) for the C4
counterexample. -/
def c4noise : OcrItem :=
  { words := "×××", location := (0, 0, 10, 10), probability := mkRat 9 10 }

/-- Python's `str.split(",")`, structurally recursive so that concrete
instances evaluate by kernel reduction: `""` splits to `[""]`, and empty
parts between consecutive commas are kept, as in Python. -/
def splitCommaAux : List Char → List Char → List String
  | [], cur => [String.mk cur.reverse]
  | c :: cs, cur =>
    if c.toNat = 44 then String.mk cur.reverse :: splitCommaAux cs []
    else splitCommaAux cs (c :: cur)

/-- Python's `str.split(",")` on a string. -/
def pySplitComma (s : String) : List String := splitCommaAux s.data []

/-- Python's `int()` on an all-digit string (only applied under the
`isdigit` guard, as in the source). -/
def pyToNat (s : String) : Nat :=
  s.data.foldl (fun n c => n * 10 + (c.toNat - 48)) 0

/-- Python's `str.lower()` (ASCII letters; enough for the `all`/`none`
literals the parser compares against). -/
def pyLower (s : String) : String := String.mk (s.data.map Char.toLower)

/-- Per-part step of the digit-index collection in
`LLMFilter._parse_llm_response` (`llm_filter.py`): strip the part, and when
it is a non-empty all-digit string whose value is below the block count,
add it to the kept set. -/
def parse_step (total_count : Nat) (acc : Finset Nat) (part : String) : Finset Nat :=
  if (pyStrip part).length != 0 && (pyStrip part).data.all pyIsDigit then
    if pyToNat (pyStrip part) < total_count then insert (pyToNat (pyStrip part)) acc
    else acc
  else acc

/-- Comma-separated digit-index collection of
`LLMFilter._parse_llm_response`. -/
def parsed_indices (response : String) (total_count : Nat) : Finset Nat :=
  (pySplitComma response).foldl (parse_step total_count) ∅

/-- `LLMFilter._parse_llm_response`: `"all"` keeps every index, `"none"`
keeps none, otherwise the comma-separated digit indices; when no valid
index was parsed and the response is neither `"none"` nor empty, every
index is kept (fail open). -/
def parse_llm_response (response0 : String) (total_count : Nat) : Finset Nat :=
  if pyStrip response0 = "all" then Finset.range total_count
  else if pyStrip response0 = "none" then ∅
  else if parsed_indices (pyStrip response0) total_count = ∅
           ∧ pyStrip response0 ≠ "none" ∧ pyStrip response0 ≠ "" then
    Finset.range total_count
  else parsed_indices (pyStrip response0) total_count

/-- `LLMFilter._call_llm`: on an API exception, keep every index (fail
open, the `except` branch); on a returned completion, parse
`content.strip().lower()`.  The completion call is the external reasoning
capability and is supplied as an `Except` outcome.  (`String.toLower`
lowercases ASCII letters, enough for the `all`/`none` literals the parser
compares against.) -/
def call_llm (llmOutcome : Except Unit String) (total_count : Nat) : Finset Nat :=
  match llmOutcome with
  | .error _ => Finset.range total_count
  | .ok content => parse_llm_response (pyLower (pyStrip content)) total_count

/-- Per-block step of the keep loop in `LLMFilter.filter_text_blocks`:
skip blank blocks, append block `i` to the kept list when `i` is in the
kept-index set, otherwise bump the filtered count. -/
def filter_step (keep : Finset Nat) (acc : List TextBlock × Nat)
    (itb : Nat × TextBlock) : List TextBlock × Nat :=
  if pyStrip itb.2.text = "" then acc
  else if itb.1 ∈ keep then (acc.1 ++ [itb.2], acc.2)
  else (acc.1, acc.2 + 1)

/-- `LLMFilter.filter_text_blocks` (`llm_filter.py`): number the non-blank
stripped texts, obtain the kept-index set from the reasoning call, then
walk the blocks in input order keeping block `i` exactly when `i` is in
the kept set, counting the dropped blocks. -/
def filter_text_blocks (llmOutcome : Except Unit String)
    (text_blocks : List TextBlock) : List TextBlock × Nat :=
  if text_blocks = [] then ([], 0)
  else
    let ocr_texts := (text_blocks.filter (fun tb => pyStrip tb.text != "")).map
      (fun tb => pyStrip tb.text)
    if ocr_texts = [] then ([], 0)
    else
      let keep := call_llm llmOutcome ocr_texts.length
      text_blocks.enum.foldl (filter_step keep) ([], 0)

/-- Concrete non-blank block used by the C5 counterexample and witness. -/
def c5block : TextBlock :=
  { text := "人工智能的未来", bbox := (0, 0, 300, 40), confidence := mkRat 9 10 }

/-- Normalisation applied to the completion before parsing:
`content.strip().lower()` in `_call_llm`, then the parser's own `strip()`. -/
def normalized_response (s : String) : String := pyStrip (pyLower (pyStrip s))

/-- Bitmap: `pix y x` is the BGR triple at row `y`, column `x` of an
`height × width` image.  The value-level embedding makes `image.copy()` the
identity: every write in `remove_text_regions` targets the copied `result`,
so the input bitmap is never mutated. -/
structure PImage where
  width : Nat
  height : Nat
  pix : Nat → Nat → Color

/-- Half-open pixel rectangle `[x1, x2) × [y1, y2)`. -/
structure Rect where
  x1 : Nat
  y1 : Nat
  x2 : Nat
  y2 : Nat
deriving DecidableEq, Repr

/-- Rectangle membership test for a pixel `(py, px)`. -/
def in_rect (r : Rect) (py px : Nat) : Bool :=
  decide (r.y1 ≤ py ∧ py < r.y2 ∧ r.x1 ≤ px ∧ px < r.x2)

/-- Numpy slice assignment `result[y1:y2, x1:x2] = color`. -/
def fillRect (img : PImage) (y1 y2 x1 x2 : Nat) (c : Color) : PImage :=
  { img with pix := fun py px =>
      if y1 ≤ py ∧ py < y2 ∧ x1 ≤ px ∧ px < x2 then c else img.pix py px }

/-- Dynamic padding of `remove_text_regions`:
`max(3, min(15, int(bh * 0.15)))`, with `int(bh * 0.15)` embedded as the
exact floor `bh * 15 / 100`. -/
def dyn_padding (bh : Nat) : Nat := max 3 (min 15 (bh * 15 / 100))

/-- The expanded box of one bbox: `x1 = max(0, x - pad)` (natural
subtraction), `x2 = min(w, x + bw + pad)`, and likewise vertically. -/
def padded_rect (h w : Nat) (bbox : BBox) : Rect :=
  { x1 := bbox.1 - dyn_padding bbox.2.2.2
    y1 := bbox.2.1 - dyn_padding bbox.2.2.2
    x2 := min w (bbox.1 + bbox.2.2.1 + dyn_padding bbox.2.2.2)
    y2 := min h (bbox.2.1 + bbox.2.2.2 + dyn_padding bbox.2.2.2) }

/-- `np.any(mask)` over an `h × w` mask. -/
def anyPixel (h w : Nat) (m : Nat → Nat → Bool) : Bool :=
  (List.range h).any (fun py => (List.range w).any (fun px => m py px))

/-- The textured-background edge mask of one box:
`edge_mask[y1:y2, x1:x2] = 255`, then the shrunk interior cleared when it
is non-degenerate. -/
def edge_mask (r inner : Rect) (hasInner : Bool) (py px : Nat) : Bool :=
  in_rect r py px && !(hasInner && in_rect inner py px)

/-- One iteration of the bbox loop in `remove_text_regions`
(`utils/image_utils.py`): expand the box by the dynamic padding, consult
the background detector on the ORIGINAL image, then either flat-fill the
whole expanded box (solid surround) or fill the 2 px-shrunk interior and
inpaint the remaining edge ring when it is non-empty.  `detectBg` embodies
`_detect_background_color` (a pure read of the image returning the median
colour and the solidity flag); `inpaint` embodies OpenCV's `cv2.inpaint`,
an external routine whose relevant contract — pixels outside the mask come
back unchanged — is a hypothesis of the theorems below. -/
def remove_text_step
    (detectBg : PImage → BBox → Color × Bool)
    (inpaint : PImage → (Nat → Nat → Bool) → PImage)
    (image : PImage) (result : PImage) (bbox : BBox) : PImage :=
  let r := padded_rect image.height image.width bbox
  let bg := detectBg image bbox
  if bg.2 then fillRect result r.y1 r.y2 r.x1 r.x2 bg.1
  else
    let inner : Rect := { x1 := r.x1 + 2, y1 := r.y1 + 2, x2 := r.x2 - 2, y2 := r.y2 - 2 }
    let hasInner := decide (inner.x1 < inner.x2 ∧ inner.y1 < inner.y2)
    let result1 :=
      if hasInner then fillRect result inner.y1 inner.y2 inner.x1 inner.x2 bg.1
      else result
    if anyPixel image.height image.width (edge_mask r inner hasInner) then
      inpaint result1 (edge_mask r inner hasInner)
    else result1

/-- `remove_text_regions` (`utils/image_utils.py`): the empty bbox list
returns a copy of the input; otherwise the per-bbox step is folded over a
copy, the background always being detected on the original input image. -/
def remove_text_regions
    (detectBg : PImage → BBox → Color × Bool)
    (inpaint : PImage → (Nat → Nat → Bool) → PImage)
    (image : PImage) (bboxes : List BBox) : PImage :=
  if bboxes = [] then image
  else bboxes.foldl (remove_text_step detectBg inpaint image) image

/-- Pixel `(py, px)` lies strictly outside every padded box. -/
def outside_all_padded (image : PImage) (bboxes : List BBox) (py px : Nat) : Bool :=
  bboxes.all (fun b => !(in_rect (padded_rect image.height image.width b) py px))

/-- Concrete 12 × 12 constant bitmap for the C3 witness. -/
def c3img : PImage := { width := 12, height := 12, pix := fun _ _ => (30, 60, 90) }

/-- Concrete background detector for the C3 witness (solid white). -/
def c3detect : PImage → BBox → Color × Bool := fun _ _ => ((255, 255, 255), true)

/-- Concrete inpainting routine for the C3 witness (identity, which
trivially leaves non-mask pixels unchanged). -/
def c3inpaint : PImage → (Nat → Nat → Bool) → PImage := fun img _ => img

/-- Inner `while` advance of `TextCorrector._is_partial_match`
(`text_corrector.py`): scan the reference for the next occurrence of `c`,
returning the remainder after it, or `none` when the reference is
exhausted. -/
def findAndDrop (c : Char) : List Char → Option (List Char)
  | [] => none
  | d :: ds => if d = c then some ds else findAndDrop c ds

/-- The `matched` counter of `_is_partial_match`: greedy in-order matching
of the OCR characters against the reference; once the reference is
exhausted, the remaining OCR characters match nothing (`ref_idx` stays at
the end). -/
def greedy_matched : List Char → List Char → Nat
  | [], _ => 0
  | c :: cs, ref =>
    match findAndDrop c ref with
    | some rest => 1 + greedy_matched cs rest
    | none => greedy_matched cs []

/-- `TextCorrector._is_partial_match`: the OCR text is strictly shorter
than the reference and at least 80 % of its characters appear in order in
it.  The float test `matched >= len(ocr) * 0.8` is embedded exactly as
`5 * matched ≥ 4 * len`. -/
def is_partial_match (ocr ref : String) : Bool :=
  if ocr.length ≥ ref.length then false
  else decide (5 * greedy_matched ocr.data ref.data ≥ 4 * ocr.length)

/-- Python's substring test `ocr in ref` (contiguous occurrence). -/
def isSubstr (ocr ref : String) : Bool := decide (List.IsInfix ocr.data ref.data)

/-- One candidate visit inside `_find_best_match`: the partial-match boost
(`len(ocr)/len(ref) + 0.3`, stored clamped at 0.95) followed by the
similarity score, each updating `(best_match, best_score)` when it strictly
beats the current best. -/
def visit_candidate (sim : String → String → ℚ) (ocr : String)
    (best : Option String × ℚ) (ref : String) : Option String × ℚ :=
  let b1 :=
    if is_partial_match ocr ref
        && decide ((ocr.length : ℚ) / (ref.length : ℚ) + 3/10 > best.2) then
      (some ref, min ((ocr.length : ℚ) / (ref.length : ℚ) + 3/10) (19/20))
    else best
  if sim ocr ref > b1.2 then (some ref, sim ocr ref) else b1

/-- One candidate loop of `_find_best_match`, with the source's early
`return ref_text, 1.0` on an exact substring hit: `.inl best` means the
loop ran to the end, `.inr ref` means the early return fired on `ref`. -/
def scan_candidates (sim : String → String → ℚ) (ocr : String) :
    List String → (Option String × ℚ) → (Option String × ℚ) ⊕ String
  | [], best => Sum.inl best
  | ref :: rest, best =>
    if isSubstr ocr ref then Sum.inr ref
    else scan_candidates sim ocr rest (visit_candidate sim ocr best ref)

/-- The in-page phase of `_find_best_match`: scan the page's parsed lines
when a non-zero page number is supplied and present in the parsed pages
(`if page_num and page_num in self.pages_text`), else fall through with no
best match. -/
def page_phase (sim : String → String → ℚ) (pages : Nat → Option (List String))
    (ocr : String) (page_num : Option Nat) : (Option String × ℚ) ⊕ String :=
  match page_num with
  | some p =>
    if p ≠ 0 then
      match pages p with
      | some lines => scan_candidates sim ocr lines (none, 0)
      | none => Sum.inl (none, 0)
    else Sum.inl (none, 0)
  | none => Sum.inl (none, 0)

/-- The deck-wide phase of `_find_best_match`: an early in-page return
passes through with score 1; otherwise the flat segments are scanned from
the in-page best exactly when that best is still below the threshold. -/
def segment_phase (sim : String → String → ℚ) (segments : List String)
    (threshold : ℚ) (ocr : String) : (Option String × ℚ) ⊕ String → Option String × ℚ
  | Sum.inr ref => (some ref, 1)
  | Sum.inl best =>
    if best.2 < threshold then
      match scan_candidates sim ocr segments best with
      | Sum.inr ref => (some ref, 1)
      | Sum.inl best2 => best2
    else best

/-- `TextCorrector._find_best_match`: texts shorter than 2 characters get
no match; otherwise the in-page phase runs first and the segment phase
completes the search.  `sim` embodies `difflib.SequenceMatcher.ratio`
(external); `pages` and `segments` are the candidate sets precomputed by
`_parse_reference_text` and `_extract_segments` from the reference text. -/
def find_best_match (sim : String → String → ℚ)
    (pages : Nat → Option (List String)) (segments : List String)
    (threshold : ℚ) (ocr : String) (page_num : Option Nat) : Option String × ℚ :=
  if ocr.length < 2 then (none, 0)
  else segment_phase sim segments threshold ocr (page_phase sim pages ocr page_num)

/-- The page lines consulted by the in-page phase. -/
def page_lines (pages : Nat → Option (List String)) (page_num : Option Nat) : List String :=
  match page_num with
  | some p => (pages p).getD []
  | none => []

/-- `TextCorrector.correct_text_block`: strip the block's text; when a
best match exists (a non-empty string, by Python truthiness) with score at
or above the threshold and it differs from the stripped text, rewrite the
text field; in every other case return the block unchanged. -/
def correct_text_block (sim : String → String → ℚ)
    (pages : Nat → Option (List String)) (segments : List String)
    (threshold : ℚ) (tb : TextBlock) (page_num : Option Nat) : TextBlock :=
  if pyStrip tb.text = "" then tb
  else
    match find_best_match sim pages segments threshold (pyStrip tb.text) page_num with
    | (some m, score) =>
      if m ≠ "" ∧ score ≥ threshold then
        if m ≠ pyStrip tb.text then { tb with text := m } else tb
      else tb
    | (none, _) => tb

/-- The candidate pool a replacement may be drawn from: the supplied
page's parsed lines (when any) plus the flat segment list. -/
def candidate_pool (pages : Nat → Option (List String)) (segments : List String)
    (page_num : Option Nat) : List String :=
  page_lines pages page_num ++ segments

/-- Points-to-EMU factor of `ppt_generator.py` (`1 pt = 12700 EMU`). -/
def pt_to_emu : ℚ := 12700

/-- Per-character advance of `_estimate_text_width` (`ppt_generator.py`):
the CJK range at the full font size, then Python's Unicode
`char.isalpha()` (modelled by `pyIsAlpha`) and `char.isdigit()` at 0.55×,
everything else at 0.4×. -/
def char_advance (c : Char) (font_size_pt : ℚ) : ℚ :=
  if isCJK c then font_size_pt * pt_to_emu
  else if pyIsAlpha c then font_size_pt * pt_to_emu * (55/100)
  else if pyIsDigit c then font_size_pt * pt_to_emu * (55/100)
  else font_size_pt * pt_to_emu * (4/10)

/-- `_estimate_text_width`: the sum of per-character advances, in EMU. -/
def estimate_text_width (text : String) (font_size_pt : ℚ) : ℚ :=
  text.data.foldl (fun w c => w + char_advance c font_size_pt) 0

/-- `_calculate_optimal_font_size` (`ppt_generator.py`): keep the original
size when the estimated width fits the box width; otherwise
`int(original * (box/estimate) * 0.95)` floored at 8 pt. -/
def calculate_optimal_font_size (text : String) (bbox_width_emu : Nat)
    (original_font_size : Nat) : Nat :=
  if estimate_text_width text (original_font_size : ℚ) ≤ (bbox_width_emu : ℚ) then
    original_font_size
  else
    max 8 (⌊(original_font_size : ℚ)
      * ((bbox_width_emu : ℚ) / estimate_text_width text (original_font_size : ℚ))
      * (95/100)⌋₊)

/-- Modelled from the claim's wording, for the refinement comparison:
"CJK characters at 1.0x the font size, Latin letters and digits at 0.55x,
other characters at 0.4x", reading "Latin letters" as the ASCII letters. -/
def spec_char_advance (c : Char) (font_size_pt : ℚ) : ℚ :=
  if isCJK c then font_size_pt * 12700
  else if (0x41 ≤ c.toNat && c.toNat ≤ 0x5a) || (0x61 ≤ c.toNat && c.toNat ≤ 0x7a)
      || pyIsDigit c then font_size_pt * 12700 * (55/100)
  else font_size_pt * 12700 * (4/10)

/-- Width estimate under the claim's per-character rule. -/
def spec_estimate_text_width (text : String) (font_size_pt : ℚ) : ℚ :=
  (text.data.map (fun c => spec_char_advance c font_size_pt)).sum

/-- Modelled from the amended claim's wording: CJK at 1.0×, any alphabetic
character (not merely Latin) or digit at 0.55×, the rest at 0.4×. -/
def amended_char_advance (c : Char) (font_size_pt : ℚ) : ℚ :=
  if isCJK c then font_size_pt * 12700
  else if pyIsAlpha c || pyIsDigit c then font_size_pt * 12700 * (55/100)
  else font_size_pt * 12700 * (4/10)

/-- Width estimate under the amended claim's per-character rule. -/
def amended_estimate_text_width (text : String) (font_size_pt : ℚ) : ℚ :=
  (text.data.map (fun c => amended_char_advance c font_size_pt)).sum

/-- Font-fit rule under the amended claim's wording: keep the size when
the estimate does not exceed the box width, else scale by box/estimate
with the 5 % margin, floored at 8 pt. -/
def amended_font_fit (text : String) (bbox_width_emu : Nat) (original : Nat) : Nat :=
  if amended_estimate_text_width text (original : ℚ) ≤ (bbox_width_emu : ℚ) then original
  else
    max 8 (⌊(original : ℚ)
      * ((bbox_width_emu : ℚ) / amended_estimate_text_width text (original : ℚ))
      * (95/100)⌋₊)

/-- Per-slide reconstruction state (`models.SlideData`); the background
image path is omitted (the cleaned bitmap is written beside the source
image and has no bearing on any claim). -/
structure SlideData where
  index : Nat
  width : Nat
  height : Nat
  text_blocks : List TextBlock
deriving DecidableEq, Repr

/-- Environment of one deck conversion: the outcomes of the external
collaborators consumed by `PPTConverter.convert_images` (`converter.py`),
per 1-based page index.  `imageOk i` is the `image_path.exists()` test;
`ocr i` is the outcome of `ocr_engine.recognize` — a block list, or the
exception a network/quota/API failure raises; `enrichBlock` is the
per-block visual style enrichment of `FontMapper.enrich_text_block`
(OpenCV work on the crop, external here, applied blockwise as in
`enrich_text_blocks`); `llm` is `get_llm_filter()` — `none` when no
reasoning capability is configured, otherwise the completion outcome
handed to the embedded `filter_text_blocks`; `save` is the outcome of
`PPTGenerator.save` (presentation serialisation plus disk write).
Progress callbacks only report and are not modelled; `load_image` failures
on an existing but unreadable file would also propagate, but no claim
exercises them and they are not modelled. -/
structure DeckEnv where
  imageOk : Nat → Bool
  imageSize : Nat → Nat × Nat
  ocr : Nat → Except String (List TextBlock)
  enrichBlock : TextBlock → TextBlock
  llm : Option (Except Unit String)
  save : Except String Unit

/-- `PPTConverter._process_single_image`: a missing image skips the page
(`return None`); an OCR exception propagates (there is no `try/except`);
otherwise the blocks are style-enriched, the LLM filter runs when
configured and blocks are present, and the page's `SlideData` is built. -/
def process_single_image (env : DeckEnv) (idx : Nat) :
    Except String (Option SlideData) :=
  if env.imageOk idx = false then Except.ok none
  else
    match env.ocr idx with
    | Except.error e => Except.error e
    | Except.ok blocks0 =>
      let blocks1 := blocks0.map env.enrichBlock
      let blocks2 :=
        match env.llm with
        | some outcome =>
          if blocks1 ≠ [] then (filter_text_blocks outcome blocks1).1 else blocks1
        | none => blocks1
      Except.ok (some { index := idx
                        width := (env.imageSize idx).1
                        height := (env.imageSize idx).2
                        text_blocks := blocks2 })

/-- Page loop of `convert_images`: a processed page appends its slide and
adds its block count, a skipped page contributes nothing, and a raising
page propagates out of the loop (no `try/except` in the source). -/
def deck_loop (env : DeckEnv) :
    List Nat → List SlideData × Nat → Except String (List SlideData × Nat)
  | [], acc => Except.ok acc
  | idx :: rest, acc =>
    match process_single_image env idx with
    | Except.error e => Except.error e
    | Except.ok none => deck_loop env rest acc
    | Except.ok (some sd) =>
      deck_loop env rest (acc.1 ++ [sd], acc.2 + sd.text_blocks.length)

/-- `PPTConverter.convert_images` (`converter.py`): iterate the pages
`1..image_count` in order, then `generator.save(output_path)`, then return
a `ConversionResult` with `success := True`.  There is no `try/except`
anywhere in the method: a page-processing or save exception propagates to
the caller and no `ConversionResult` is produced. -/
def convert_images (env : DeckEnv) (image_count : Nat) :
    Except String ConversionResult :=
  match deck_loop env (List.range' 1 image_count) ([], 0) with
  | Except.error e => Except.error e
  | Except.ok acc =>
    match env.save with
    | Except.error e => Except.error e
    | Except.ok _ =>
      Except.ok { success := true
                  slides_count := acc.1.length
                  text_blocks_count := acc.2 }

/-- The exception page `idx` raises during processing, when any: an OCR
failure on an existing image. -/
def slide_error (env : DeckEnv) (idx : Nat) : Option String :=
  if env.imageOk idx then
    match env.ocr idx with
    | Except.error e => some e
    | Except.ok _ => none
  else none

/-- Concrete deck for the C1 counterexample and witness: both images
exist, OCR raises a quota error on page 1 and succeeds on page 2, no
reasoning capability configured, save would succeed. -/
def c1env : DeckEnv :=
  { imageOk := fun _ => true
    imageSize := fun _ => (1280, 720)
    ocr := fun j => if j = 1 then Except.error "quota" else Except.ok [c4block]
    enrichBlock := id
    llm := none
    save := Except.ok () }

/-- Concrete deck for the C2 counterexample and witness: one page that
processes fine, but the save step fails. -/
def c2env : DeckEnv :=
  { imageOk := fun _ => true
    imageSize := fun _ => (1280, 720)
    ocr := fun _ => Except.ok [c4block]
    enrichBlock := id
    llm := none
    save := Except.error "disk full" }

/-- Decidable equality for `Except` outcomes (core does not derive it). -/
instance exceptDecEq {ε α : Type} [DecidableEq ε] [DecidableEq α] :
    DecidableEq (Except ε α) := fun a b =>
  match a, b with
  | Except.error e1, Except.error e2 =>
    if h : e1 = e2 then isTrue (by rw [h])
    else isFalse (by intro hc; cases hc; exact h rfl)
  | Except.ok v1, Except.ok v2 =>
    if h : v1 = v2 then isTrue (by rw [h])
    else isFalse (by intro hc; cases hc; exact h rfl)
  | Except.error e1, Except.ok v2 => isFalse (by intro hc; cases hc)
  | Except.ok v1, Except.error e2 => isFalse (by intro hc; cases hc)

/-- The failed `ConversionResult` the claim expects on a save failure
(never produced by the code). -/
def c2badresult : ConversionResult :=
  { success := false, slides_count := 1, text_blocks_count := 1,
    error_message := some "disk full" }

theorem estimate_font_size_pt_eq_floor (bh ih : Nat) (h : 0 < ih) :
    estimate_font_size_pt bh ih 540 = max 8 (min (⌊(bh : ℚ) / (ih : ℚ) * 540⌋₊) 144) := by
  have hcast : (bh : ℚ) / (ih : ℚ) * 540 = ((bh * 540 : ℕ) : ℚ) / ((ih : ℕ) : ℚ) := by
    push_cast
    ring
  rw [estimate_font_size_pt, if_neg (Nat.pos_iff_ne_zero.mp h), hcast, Nat.floor_div_nat]
  norm_cast

/-- C7: for every bbox height and positive source-image height, the estimated
font size equals `clamp(⌊bbox_height / image_height * 540⌋, 8, 144)`, hence
lies in `[8, 144]`, and doubling the bbox height at fixed image height never
decreases it. -/
theorem C7_font_size_clamp (bh ih : Nat) (h : 0 < ih) :
    estimate_font_size_pt bh ih 540 = max 8 (min (⌊(bh : ℚ) / (ih : ℚ) * 540⌋₊) 144)
    ∧ 8 ≤ estimate_font_size_pt bh ih 540
    ∧ estimate_font_size_pt bh ih 540 ≤ 144
    ∧ estimate_font_size_pt bh ih 540 ≤ estimate_font_size_pt (2 * bh) ih 540 := by
  refine ⟨estimate_font_size_pt_eq_floor bh ih h, ?_, ?_, ?_⟩
  · rw [estimate_font_size_pt, if_neg (Nat.pos_iff_ne_zero.mp h)]
    exact Nat.le_max_left _ _
  · rw [estimate_font_size_pt, if_neg (Nat.pos_iff_ne_zero.mp h)]
    exact max_le (by norm_num) (min_le_right _ _)
  · rw [estimate_font_size_pt, estimate_font_size_pt,
      if_neg (Nat.pos_iff_ne_zero.mp h), if_neg (Nat.pos_iff_ne_zero.mp h)]
    have hdiv : bh * 540 / ih ≤ 2 * bh * 540 / ih :=
      Nat.div_le_div_right (by omega)
    exact max_le_max le_rfl (min_le_min hdiv le_rfl)

/-- Witness for C7 at `bbox_height = 100`, `image_height = 1080`. -/
theorem C7_font_size_clamp_witness :
    estimate_font_size_pt 100 1080 540 = max 8 (min (⌊(100 : ℚ) / (1080 : ℚ) * 540⌋₊) 144)
    ∧ 8 ≤ estimate_font_size_pt 100 1080 540
    ∧ estimate_font_size_pt 100 1080 540 ≤ 144
    ∧ estimate_font_size_pt 100 1080 540 ≤ estimate_font_size_pt (2 * 100) 1080 540 :=
  C7_font_size_clamp 100 1080 (by norm_num)


theorem restore_coord_eq_floor (c : Nat) (scale : ℚ) (h : 0 < scale) :
    restore_coord c scale = ⌊(c : ℚ) / scale⌋₊ := by
  have hnum : 0 < scale.num := Rat.num_pos.mpr h
  have hq : ((scale.num.toNat : ℕ) : ℚ) = ((scale.num : ℤ) : ℚ) := by
    exact_mod_cast Int.toNat_of_nonneg hnum.le
  have key : (c : ℚ) / scale = ((c * scale.den : ℕ) : ℚ) / ((scale.num.toNat : ℕ) : ℚ) := by
    rw [hq]
    conv_lhs => rw [← Rat.num_div_den scale]
    rw [div_div_eq_mul_div]
    push_cast
    ring
  rw [restore_coord, key, Nat.floor_div_nat, Nat.floor_natCast]

/-- C9: `FontMapper.map_font` computes the target size first and classifies
the category purely by that size: at or above 24 pt the `heiti` headline
category mapped to the sans display font, below it the `songti` body
category mapped to the serif font — for every visual weight estimator and
colour extractor, so the visual-feature classifier never overrides the
title/body split. -/
theorem C9_size_only_category {Crop : Type} (estimateWeight : Crop → String)
    (extractColor : Crop → Color) (text_image : Crop) (bh ih : Nat) :
    (map_font estimateWeight extractColor text_image bh ih).font_size
        = estimate_font_size_pt bh ih 540
    ∧ (24 ≤ estimate_font_size_pt bh ih 540 →
        (map_font estimateWeight extractColor text_image bh ih).category = "heiti"
        ∧ (map_font estimateWeight extractColor text_image bh ih).font_name = "Noto Sans SC")
    ∧ (estimate_font_size_pt bh ih 540 < 24 →
        (map_font estimateWeight extractColor text_image bh ih).category = "songti"
        ∧ (map_font estimateWeight extractColor text_image bh ih).font_name = "Noto Serif SC") := by
  refine ⟨rfl, fun hle => ?_, fun hlt => ?_⟩
  · simp [map_font, TITLE_FONT_SIZE_THRESHOLD, hle, get_font_display_name,
      FONT_DISPLAY_NAMES]
  · simp [map_font, TITLE_FONT_SIZE_THRESHOLD, Nat.not_le.mpr hlt,
      get_font_display_name, FONT_DISPLAY_NAMES]

/-- Witness for C9 at a 100 px tall box in a 1080 px image (50 pt ≥ 24 pt),
with an arbitrary concrete weight estimator and colour extractor. -/
theorem C9_size_only_category_witness :
    24 ≤ estimate_font_size_pt 100 1080 540
    ∧ (map_font (fun _ : Unit => "Bold") (fun _ => (10, 20, 30)) () 100 1080).category = "heiti"
    ∧ (map_font (fun _ : Unit => "Bold") (fun _ => (10, 20, 30)) () 100 1080).font_name
        = "Noto Sans SC" :=
  ⟨by decide,
   ((C9_size_only_category (fun _ : Unit => "Bold") (fun _ => (10, 20, 30)) () 100 1080).2.1
     (by decide)).1,
   ((C9_size_only_category (fun _ : Unit => "Bold") (fun _ => (10, 20, 30)) () 100 1080).2.1
     (by decide)).2⟩

/-- C4 (amended): every block surviving the Text Detector post-filter has
confidence at least the threshold; its stripped text is non-empty and is
not a run over `SYMBOL_ONLY_PATTERN`'s character list; a surviving
single-character run is CJK with confidence at least 0.5; a surviving
2-character run has confidence at least 0.5.  (The original claim's blanket
discard of every run without alphanumeric/CJK content fails — see
`C4_counterexample` — because the pattern's character list does not cover
all such symbols.) -/
theorem C4_post_filter (items : List OcrItem) (threshold scale : ℚ)
    (b : TextBlock) (hb : b ∈ recognize_filter items threshold scale) :
    threshold ≤ b.confidence
    ∧ pyStrip b.text ≠ ""
    ∧ symbol_only (pyStrip b.text) = false
    ∧ ((pyStrip b.text).length = 1 →
        (pyStrip b.text).data.all isCJK = true ∧ mkRat 1 2 ≤ b.confidence)
    ∧ ((pyStrip b.text).length = 2 → mkRat 1 2 ≤ b.confidence) := by
  obtain ⟨item, hitem, hf⟩ := List.mem_filterMap.mp hb
  by_cases h1 : item.probability < threshold
  · rw [if_pos h1] at hf
    exact absurd hf (by simp)
  · rw [if_neg h1] at hf
    by_cases h2 : is_valid_text item.words item.probability = false
    · rw [if_pos h2] at hf
      exact absurd hf (by simp)
    · rw [if_neg h2] at hf
      have hbeq : b = { text := item.words
                        bbox := restore_bbox item.location scale
                        confidence := item.probability } := (Option.some.injEq _ _).mp hf |>.symm
      have htrue : is_valid_text item.words item.probability = true :=
        Bool.not_eq_false _ |>.mp h2
      subst hbeq
      rw [is_valid_text] at htrue
      by_cases hs : pyStrip item.words = ""
      · rw [if_pos hs] at htrue; exact absurd htrue (by simp)
      · rw [if_neg hs] at htrue
        simp only at htrue
        by_cases hsym : symbol_only (pyStrip item.words) = true
        · rw [if_pos hsym] at htrue; exact absurd htrue (by simp)
        · rw [if_neg hsym] at htrue
          refine ⟨not_lt.mp h1, hs, Bool.not_eq_true _ |>.mp hsym, ?_, ?_⟩
          · intro hlen1
            rw [if_pos hlen1] at htrue
            by_cases hcjk : (pyStrip item.words).data.all isCJK = true
            · rw [if_pos hcjk] at htrue
              exact ⟨hcjk, of_decide_eq_true htrue⟩
            · rw [if_neg hcjk] at htrue
              exact absurd htrue (by simp)
          · intro hlen2
            have hne1 : ¬ (pyStrip item.words).length = 1 := by rw [hlen2]; omega
            rw [if_neg hne1, if_pos hlen2] at htrue
            exact of_decide_eq_true htrue

/-- Witness for C4 (amended) on the concrete run `人工智能` at confidence
0.9 and threshold 0.6. -/
theorem C4_post_filter_witness :
    mkRat 6 10 ≤ c4block.confidence
    ∧ pyStrip c4block.text ≠ ""
    ∧ symbol_only (pyStrip c4block.text) = false
    ∧ ((pyStrip c4block.text).length = 1 →
        (pyStrip c4block.text).data.all isCJK = true ∧ mkRat 1 2 ≤ c4block.confidence)
    ∧ ((pyStrip c4block.text).length = 2 → mkRat 1 2 ≤ c4block.confidence) :=
  C4_post_filter [c4item] (mkRat 6 10) 1 c4block (by decide)

/-- C4 counterexample: the run `×××` (three U+00D7 multiplication signs,
confidence 0.9) contains no alphanumeric or CJK character, yet it is not
matched by `SYMBOL_ONLY_PATTERN` and survives the post-filter at threshold
0.6 — so runs that are purely punctuation/symbols in the claim's sense are
not all discarded. -/
theorem C4_counterexample :
    spec_noise_run "×××" = true
    ∧ recognize_filter [c4noise] (mkRat 6 10) 1
        = [{ text := "×××", bbox := (0, 0, 10, 10), confidence := mkRat 9 10 }] := by
  constructor
  · decide
  · decide

theorem parse_step_preserves_lt (total : Nat) (acc : Finset Nat) (part : String)
    (h : ∀ i ∈ acc, i < total) : ∀ i ∈ parse_step total acc part, i < total := by
  intro i hi
  rw [parse_step] at hi
  split_ifs at hi with h1 h2
  · rcases Finset.mem_insert.mp hi with h3 | h3
    · exact h3 ▸ h2
    · exact h i h3
  · exact h i hi
  · exact h i hi

theorem foldl_parse_step_lt (total : Nat) :
    ∀ (parts : List String) (acc : Finset Nat), (∀ i ∈ acc, i < total) →
      ∀ i ∈ parts.foldl (parse_step total) acc, i < total := by
  intro parts
  induction parts with
  | nil => intro acc h; simpa using h
  | cons p rest ih =>
    intro acc h
    rw [List.foldl_cons]
    exact ih _ (parse_step_preserves_lt total acc p h)

theorem parsed_indices_lt (response : String) (total : Nat) :
    ∀ i ∈ parsed_indices response total, i < total :=
  foldl_parse_step_lt total (pySplitComma response) ∅ (by simp)

theorem call_llm_lt (r : Except Unit String) (n : Nat) :
    ∀ i ∈ call_llm r n, i < n := by
  intro i hi
  cases r with
  | error e => exact Finset.mem_range.mp hi
  | ok content =>
    simp only [call_llm, parse_llm_response] at hi
    split_ifs at hi with h1 h2 h3
    · exact Finset.mem_range.mp hi
    · exact absurd hi (Finset.not_mem_empty i)
    · exact Finset.mem_range.mp hi
    · exact parsed_indices_lt _ n i hi

theorem filter_loop_spec (keep : Finset Nat) :
    ∀ (l : List (Nat × TextBlock)) (acc : List TextBlock × Nat),
      (∀ p ∈ l, pyStrip p.2.text ≠ "") →
      l.foldl (filter_step keep) acc
        = (acc.1 ++ (l.filter (fun p => decide (p.1 ∈ keep))).map Prod.snd,
           acc.2 + (l.filter (fun p => !decide (p.1 ∈ keep))).length) := by
  intro l
  induction l with
  | nil => intro acc h; simp
  | cons p rest ih =>
    intro acc h
    have hp : pyStrip p.2.text ≠ "" := h p (List.mem_cons_self _ _)
    rw [List.foldl_cons, ih _ (fun q hq => h q (List.mem_cons_of_mem _ hq))]
    by_cases hk : p.1 ∈ keep
    · simp [filter_step, hp, hk]
    · simp [filter_step, hp, hk]
      omega

theorem length_filter_partition {α : Type} (p : α → Bool) :
    ∀ l : List α, (l.filter p).length + (l.filter (fun a => !p a)).length = l.length := by
  intro l
  induction l with
  | nil => simp
  | cons a rest ih =>
    by_cases hp : p a = true
    · simp [List.filter_cons, hp, ih]; omega
    · simp [List.filter_cons, hp, ih]; omega

theorem mem_enumFrom_facts {α : Type} :
    ∀ (l : List α) (n : Nat) (p : Nat × α), p ∈ l.enumFrom n →
      p.2 ∈ l ∧ n ≤ p.1 ∧ p.1 < n + l.length := by
  intro l
  induction l with
  | nil => intro n p hp; simp [List.enumFrom] at hp
  | cons a rest ih =>
    intro n p hp
    rw [List.enumFrom] at hp
    rcases List.mem_cons.mp hp with h | h
    · subst h
      exact ⟨List.mem_cons_self _ _, le_rfl, by simp⟩
    · obtain ⟨h1, h2, h3⟩ := ih (n + 1) p h
      exact ⟨List.mem_cons_of_mem _ h1, by omega, by simp; omega⟩

theorem filter_text_blocks_eq (r : Except Unit String) (blocks : List TextBlock)
    (hne : blocks ≠ []) (hall : ∀ tb ∈ blocks, pyStrip tb.text ≠ "") :
    filter_text_blocks r blocks
      = ((blocks.enum.filter
            (fun p => decide (p.1 ∈ call_llm r blocks.length))).map Prod.snd,
         (blocks.enum.filter
            (fun p => !decide (p.1 ∈ call_llm r blocks.length))).length) := by
  have hfil : blocks.filter (fun tb => pyStrip tb.text != "") = blocks :=
    List.filter_eq_self.mpr (fun tb htb => bne_iff_ne.mpr (hall tb htb))
  have henum : ∀ p ∈ blocks.enum, pyStrip p.2.text ≠ "" := by
    intro p hp
    exact hall p.2 (mem_enumFrom_facts blocks 0 p hp).1
  rw [filter_text_blocks, if_neg hne]
  simp only [hfil, List.length_map]
  rw [if_neg (by simpa using hne)]
  rw [filter_loop_spec _ blocks.enum ([], 0) henum]
  simp

/-- C10: with every block non-blank, the kept list is the subsequence of
the input selected by the parsed kept-index set (relative order kept, no
duplication), every index the parser can produce is within range, and the
kept length plus the filtered count equals the input length. -/
theorem C10_subsequence_partition (r : Except Unit String) (blocks : List TextBlock)
    (hall : ∀ tb ∈ blocks, pyStrip tb.text ≠ "") :
    (filter_text_blocks r blocks).1
        = (blocks.enum.filter
            (fun p => decide (p.1 ∈ call_llm r blocks.length))).map Prod.snd
    ∧ List.Sublist (filter_text_blocks r blocks).1 blocks
    ∧ (∀ i ∈ call_llm r blocks.length, i < blocks.length)
    ∧ (filter_text_blocks r blocks).1.length + (filter_text_blocks r blocks).2
        = blocks.length := by
  by_cases hne : blocks = []
  · subst hne
    refine ⟨by rw [filter_text_blocks]; simp, by rw [filter_text_blocks]; simp,
      call_llm_lt r 0, by rw [filter_text_blocks]; simp⟩
  · have heq := filter_text_blocks_eq r blocks hne hall
    have hsub : List.Sublist (filter_text_blocks r blocks).1 blocks := by
      rw [heq]
      have h1 : List.Sublist
          (blocks.enum.filter (fun p => decide (p.1 ∈ call_llm r blocks.length)))
          blocks.enum := List.filter_sublist _
      have h2 := h1.map Prod.snd
      rwa [List.enum_map_snd] at h2
    refine ⟨by rw [heq], hsub, call_llm_lt r blocks.length, ?_⟩
    rw [heq]
    simp only [List.length_map]
    have := length_filter_partition
      (fun p : Nat × TextBlock => decide (p.1 ∈ call_llm r blocks.length)) blocks.enum
    simp only [List.enum_length] at this
    simpa using this

/-- Witness for C10 on two concrete blocks with the completion `"1"`. -/
theorem C10_subsequence_partition_witness :
    (filter_text_blocks (Except.ok "1") [c5block, c4block]).1
        = ([c5block, c4block].enum.filter
            (fun p => decide (p.1 ∈ call_llm (Except.ok "1") 2))).map Prod.snd
    ∧ List.Sublist (filter_text_blocks (Except.ok "1") [c5block, c4block]).1
        [c5block, c4block]
    ∧ (filter_text_blocks (Except.ok "1") [c5block, c4block]).1.length
        + (filter_text_blocks (Except.ok "1") [c5block, c4block]).2 = 2 :=
  ⟨(C10_subsequence_partition (Except.ok "1") [c5block, c4block] (by decide)).1,
   (C10_subsequence_partition (Except.ok "1") [c5block, c4block] (by decide)).2.1,
   (C10_subsequence_partition (Except.ok "1") [c5block, c4block] (by decide)).2.2.2⟩

theorem filter_keep_all (r : Except Unit String) (blocks : List TextBlock)
    (hall : ∀ tb ∈ blocks, pyStrip tb.text ≠ "")
    (hkeep : call_llm r blocks.length = Finset.range blocks.length) :
    filter_text_blocks r blocks = (blocks, 0) := by
  by_cases hne : blocks = []
  · subst hne; rw [filter_text_blocks]; simp
  · rw [filter_text_blocks_eq r blocks hne hall, hkeep]
    have hall_in : ∀ p ∈ blocks.enum,
        (fun p : Nat × TextBlock => decide (p.1 ∈ Finset.range blocks.length)) p = true := by
      intro p hp
      have := (mem_enumFrom_facts blocks 0 p hp).2.2
      simp only [decide_eq_true_eq, Finset.mem_range]
      omega
    have h1 : blocks.enum.filter
        (fun p => decide (p.1 ∈ Finset.range blocks.length)) = blocks.enum :=
      List.filter_eq_self.mpr hall_in
    have h2 : blocks.enum.filter
        (fun p : Nat × TextBlock => !decide (p.1 ∈ Finset.range blocks.length)) = [] := by
      rw [List.filter_eq_nil_iff]
      intro p hp
      have hb := (mem_enumFrom_facts blocks 0 p hp).2.2
      simp [Finset.mem_range]
      omega
    rw [h1, h2, List.enum_map_snd]
    simp

/-- C5 (amended): with every input block non-blank, the Noise Filter fails
open — all blocks kept, filtered count 0 — both when the reasoning call
raises and when it returns a response that, after trimming and lowering,
is non-empty, differs from the literal `none`, and contains no valid
index.  (The claim as stated also covered the empty response; the code
instead treats an empty or whitespace-only completion like `none` and
filters out every block — see `C5_counterexample`.) -/
theorem C5_fail_open (blocks : List TextBlock)
    (hall : ∀ tb ∈ blocks, pyStrip tb.text ≠ "") :
    filter_text_blocks (Except.error ()) blocks = (blocks, 0)
    ∧ ∀ s : String, normalized_response s ≠ "" → normalized_response s ≠ "none" →
        parsed_indices (normalized_response s) blocks.length = ∅ →
        filter_text_blocks (Except.ok s) blocks = (blocks, 0) := by
  constructor
  · exact filter_keep_all (Except.error ()) blocks hall rfl
  · intro s hne hnone hempty
    refine filter_keep_all (Except.ok s) blocks hall ?_
    rw [call_llm, parse_llm_response]
    by_cases hall' : pyStrip (pyLower (pyStrip s)) = "all"
    · rw [if_pos hall']
    · rw [if_neg hall', if_neg (by exact hnone), if_pos ⟨hempty, hnone, hne⟩]

/-- Witness for C5 (amended): a raising reasoning stub and a garbage
completion both leave the single concrete block untouched. -/
theorem C5_fail_open_witness :
    filter_text_blocks (Except.error ()) [c5block] = ([c5block], 0)
    ∧ filter_text_blocks (Except.ok "garbage") [c5block] = ([c5block], 0) :=
  ⟨(C5_fail_open [c5block] (by decide)).1,
   (C5_fail_open [c5block] (by decide)).2 "garbage" (by decide) (by decide) (by decide)⟩

/-- C5 counterexample: the empty completion is unparseable in the claim's
sense (no valid index, not the literal `none`), yet the filter drops the
block and reports a filtered count of 1 instead of failing open. -/
theorem C5_counterexample :
    filter_text_blocks (Except.ok "") [c5block] = ([], 1)
    ∧ filter_text_blocks (Except.ok "") [c5block] ≠ ([c5block], 0) :=
  ⟨by decide, by decide⟩

theorem fillRect_outside (img : PImage) (y1 y2 x1 x2 : Nat) (c : Color) (py px : Nat)
    (h : ¬ (y1 ≤ py ∧ py < y2 ∧ x1 ≤ px ∧ px < x2)) :
    (fillRect img y1 y2 x1 x2 c).pix py px = img.pix py px := by
  simp [fillRect, h]

theorem remove_text_step_outside
    (detectBg : PImage → BBox → Color × Bool)
    (inpaint : PImage → (Nat → Nat → Bool) → PImage)
    (hin : ∀ img m py px, m py px = false → (inpaint img m).pix py px = img.pix py px)
    (image result : PImage) (bbox : BBox) (py px : Nat)
    (hout : in_rect (padded_rect image.height image.width bbox) py px = false) :
    (remove_text_step detectBg inpaint image result bbox).pix py px = result.pix py px := by
  have houtP : ¬ ((padded_rect image.height image.width bbox).y1 ≤ py
      ∧ py < (padded_rect image.height image.width bbox).y2
      ∧ (padded_rect image.height image.width bbox).x1 ≤ px
      ∧ px < (padded_rect image.height image.width bbox).x2) := by
    simpa [in_rect] using hout
  have hinner : ¬ ((padded_rect image.height image.width bbox).y1 + 2 ≤ py
      ∧ py < (padded_rect image.height image.width bbox).y2 - 2
      ∧ (padded_rect image.height image.width bbox).x1 + 2 ≤ px
      ∧ px < (padded_rect image.height image.width bbox).x2 - 2) := by
    intro hc
    exact houtP ⟨by omega, by omega, by omega, by omega⟩
  have hmask : ∀ inner hasInner,
      edge_mask (padded_rect image.height image.width bbox) inner hasInner py px = false := by
    intro inner hasInner
    simp [edge_mask, hout]
  rw [remove_text_step]
  by_cases hsolid : (detectBg image bbox).2 = true
  · simp only [hsolid, if_true]
    exact fillRect_outside _ _ _ _ _ _ _ _ houtP
  · simp only [Bool.not_eq_true] at hsolid
    simp only [hsolid, Bool.false_eq_true, if_false]
    by_cases hany : anyPixel image.height image.width
        (edge_mask (padded_rect image.height image.width bbox)
          { x1 := (padded_rect image.height image.width bbox).x1 + 2
            y1 := (padded_rect image.height image.width bbox).y1 + 2
            x2 := (padded_rect image.height image.width bbox).x2 - 2
            y2 := (padded_rect image.height image.width bbox).y2 - 2 }
          (decide ((padded_rect image.height image.width bbox).x1 + 2
              < (padded_rect image.height image.width bbox).x2 - 2
            ∧ (padded_rect image.height image.width bbox).y1 + 2
              < (padded_rect image.height image.width bbox).y2 - 2))) = true
    · rw [if_pos hany, hin _ _ _ _ (hmask _ _)]
      split
      · exact fillRect_outside _ _ _ _ _ _ _ _ hinner
      · rfl
    · rw [if_neg (by simpa using hany)]
      split
      · exact fillRect_outside _ _ _ _ _ _ _ _ hinner
      · rfl

theorem remove_fold_outside
    (detectBg : PImage → BBox → Color × Bool)
    (inpaint : PImage → (Nat → Nat → Bool) → PImage)
    (hin : ∀ img m py px, m py px = false → (inpaint img m).pix py px = img.pix py px)
    (image : PImage) (py px : Nat) :
    ∀ (l : List BBox) (result : PImage),
      (∀ b ∈ l, in_rect (padded_rect image.height image.width b) py px = false) →
      (l.foldl (remove_text_step detectBg inpaint image) result).pix py px
        = result.pix py px := by
  intro l
  induction l with
  | nil => intro result h; rfl
  | cons b rest ih =>
    intro result h
    rw [List.foldl_cons, ih _ (fun q hq => h q (List.mem_cons_of_mem _ hq))]
    exact remove_text_step_outside detectBg inpaint hin image result b py px
      (h b (List.mem_cons_self _ _))

/-- C3: for every background detector outcome and every inpainting routine
that leaves non-mask pixels unchanged, `remove_text_regions` leaves every
pixel strictly outside all padded boxes identical to the input, and on the
empty bbox list returns a bitmap identical to the input.  (The input is
never mutated: the source copies the bitmap before writing, which the
value-level embedding renders as all writes landing on the returned
image.) -/
theorem C3_cleaner_untouched_outside
    (detectBg : PImage → BBox → Color × Bool)
    (inpaint : PImage → (Nat → Nat → Bool) → PImage)
    (hin : ∀ img m py px, m py px = false → (inpaint img m).pix py px = img.pix py px)
    (image : PImage) (bboxes : List BBox) (py px : Nat)
    (hout : outside_all_padded image bboxes py px = true) :
    (remove_text_regions detectBg inpaint image bboxes).pix py px = image.pix py px
    ∧ remove_text_regions detectBg inpaint image [] = image := by
  constructor
  · rw [remove_text_regions]
    by_cases hne : bboxes = []
    · rw [if_pos hne]
    · rw [if_neg hne]
      refine remove_fold_outside detectBg inpaint hin image py px bboxes image ?_
      intro b hb
      have := List.all_eq_true.mp hout b hb
      simpa using this
  · rw [remove_text_regions]
    simp

/-- Witness for C3: a 12 × 12 constant bitmap, one box `(2,2,3,3)` (padded
to `[0,8) × [0,8)`), the identity inpainting routine, and the untouched
corner pixel `(11,11)`. -/
theorem C3_cleaner_untouched_outside_witness :
    (remove_text_regions c3detect c3inpaint c3img [(2, 2, 3, 3)]).pix 11 11
        = c3img.pix 11 11
    ∧ remove_text_regions c3detect c3inpaint c3img [] = c3img :=
  C3_cleaner_untouched_outside c3detect c3inpaint (fun _ _ _ _ _ => rfl)
    c3img [(2, 2, 3, 3)] 11 11 (by decide)

theorem visit_candidate_fst (sim : String → String → ℚ) (ocr : String)
    (best : Option String × ℚ) (ref : String) :
    (visit_candidate sim ocr best ref).1 = best.1
    ∨ (visit_candidate sim ocr best ref).1 = some ref := by
  rw [visit_candidate]
  split_ifs <;> simp

theorem scan_candidates_inr_mem (sim : String → String → ℚ) (ocr : String) :
    ∀ (l : List String) (best : Option String × ℚ) (m : String),
      scan_candidates sim ocr l best = Sum.inr m → m ∈ l := by
  intro l
  induction l with
  | nil => intro best m h; simp [scan_candidates] at h
  | cons ref rest ih =>
    intro best m h
    rw [scan_candidates] at h
    split_ifs at h with hs
    · cases h
      exact List.mem_cons_self _ _
    · exact List.mem_cons_of_mem _ (ih _ m h)

theorem scan_candidates_inl_mem (sim : String → String → ℚ) (ocr : String) :
    ∀ (l : List String) (best : Option String × ℚ) (q : Option String × ℚ) (m : String),
      scan_candidates sim ocr l best = Sum.inl q → q.1 = some m →
      best.1 = some m ∨ m ∈ l := by
  intro l
  induction l with
  | nil =>
    intro best q m h hq
    rw [scan_candidates] at h
    cases h
    exact Or.inl hq
  | cons ref rest ih =>
    intro best q m h hq
    rw [scan_candidates] at h
    by_cases hs : isSubstr ocr ref = true
    · rw [if_pos hs] at h
      exact absurd h (fun hc => Sum.noConfusion hc)
    · rw [if_neg hs] at h
      rcases ih _ q m h hq with h1 | h1
      · rcases visit_candidate_fst sim ocr best ref with h2 | h2
        · exact Or.inl (h2 ▸ h1)
        · rw [h2] at h1
          cases h1
          exact Or.inr (List.mem_cons_self _ _)
      · exact Or.inr (List.mem_cons_of_mem _ h1)

theorem page_phase_inr_mem (sim : String → String → ℚ)
    (pages : Nat → Option (List String)) (ocr : String) (page_num : Option Nat)
    (ref : String) (h : page_phase sim pages ocr page_num = Sum.inr ref) :
    ref ∈ page_lines pages page_num := by
  rcases page_num with _ | p
  · exact absurd h (by rw [page_phase]; simp)
  · rw [page_phase] at h
    by_cases hp : p ≠ 0
    · rw [if_pos hp] at h
      rcases hlines : pages p with _ | lines
      · rw [hlines] at h
        exact absurd h (by simp)
      · rw [hlines] at h
        rw [page_lines, hlines, Option.getD_some]
        exact scan_candidates_inr_mem sim ocr lines _ ref h
    · rw [if_neg hp] at h
      exact absurd h (by simp)

theorem page_phase_inl_mem (sim : String → String → ℚ)
    (pages : Nat → Option (List String)) (ocr : String) (page_num : Option Nat)
    (best : Option String × ℚ) (m : String)
    (h : page_phase sim pages ocr page_num = Sum.inl best) (hm : best.1 = some m) :
    m ∈ page_lines pages page_num := by
  rcases page_num with _ | p
  · rw [page_phase] at h
    rw [Sum.inl.injEq] at h
    rw [← h] at hm
    exact absurd hm (by simp)
  · rw [page_phase] at h
    by_cases hp : p ≠ 0
    · rw [if_pos hp] at h
      rcases hlines : pages p with _ | lines
      · rw [hlines] at h
        rw [Sum.inl.injEq] at h
        rw [← h] at hm
        exact absurd hm (by simp)
      · rw [hlines] at h
        rw [page_lines, hlines, Option.getD_some]
        rcases scan_candidates_inl_mem sim ocr lines _ best m h hm with h1 | h1
        · exact absurd h1 (by simp)
        · exact h1
    · rw [if_neg hp] at h
      rw [Sum.inl.injEq] at h
      rw [← h] at hm
      exact absurd hm (by simp)

theorem segment_phase_mem (sim : String → String → ℚ) (segments : List String)
    (threshold : ℚ) (ocr : String) (fst : (Option String × ℚ) ⊕ String) (m : String)
    (hm : (segment_phase sim segments threshold ocr fst).1 = some m) :
    fst = Sum.inr m
    ∨ ∃ best, fst = Sum.inl best ∧ (best.1 = some m ∨ m ∈ segments) := by
  rcases fst with best | ref
  · rw [segment_phase] at hm
    split_ifs at hm with hth
    · revert hm
      rcases hscan : scan_candidates sim ocr segments best with best2 | ref2
      · intro hm
        rcases scan_candidates_inl_mem sim ocr segments best best2 m hscan hm with h1 | h1
        · exact Or.inr ⟨best, rfl, Or.inl h1⟩
        · exact Or.inr ⟨best, rfl, Or.inr h1⟩
      · intro hm
        simp only [Option.some.injEq] at hm
        subst hm
        exact Or.inr ⟨best, rfl,
          Or.inr (scan_candidates_inr_mem sim ocr segments best ref2 hscan)⟩
    · exact Or.inr ⟨best, rfl, Or.inl hm⟩
  · rw [segment_phase] at hm
    simp only [Option.some.injEq] at hm
    subst hm
    exact Or.inl rfl

theorem find_best_match_mem (sim : String → String → ℚ)
    (pages : Nat → Option (List String)) (segments : List String)
    (threshold : ℚ) (ocr : String) (page_num : Option Nat) (m : String) (s : ℚ)
    (h : find_best_match sim pages segments threshold ocr page_num = (some m, s)) :
    m ∈ candidate_pool pages segments page_num := by
  rw [find_best_match] at h
  split_ifs at h with hlen
  · exact absurd h (by simp)
  · have hm : (segment_phase sim segments threshold ocr
        (page_phase sim pages ocr page_num)).1 = some m := by
      rw [h]
    rcases segment_phase_mem sim segments threshold ocr _ m hm with h1 | ⟨best, h1, h2⟩
    · exact List.mem_append_left _ (page_phase_inr_mem sim pages ocr page_num m h1)
    · rcases h2 with h2 | h2
      · exact List.mem_append_left _ (page_phase_inl_mem sim pages ocr page_num best m h1 h2)
      · exact List.mem_append_right _ h2

/-- C6: for every similarity oracle, precomputed candidate sets, threshold
and page number, the Reference Corrector either leaves the fragment's text
unchanged or replaces it with a string drawn verbatim from the candidate
pool (the page's parsed lines or the flat segments); moreover a best-match
score below the threshold always leaves the text unchanged. -/
theorem C6_corrector_no_invention (sim : String → String → ℚ)
    (pages : Nat → Option (List String)) (segments : List String)
    (threshold : ℚ) (tb : TextBlock) (page_num : Option Nat) :
    ((correct_text_block sim pages segments threshold tb page_num).text = tb.text
      ∨ (correct_text_block sim pages segments threshold tb page_num).text
          ∈ candidate_pool pages segments page_num)
    ∧ (∀ m s, find_best_match sim pages segments threshold (pyStrip tb.text) page_num
          = (m, s) → s < threshold →
        correct_text_block sim pages segments threshold tb page_num = tb) := by
  constructor
  · rw [correct_text_block]
    split_ifs with hblank
    · exact Or.inl rfl
    · rcases hfind : find_best_match sim pages segments threshold (pyStrip tb.text) page_num
        with ⟨_ | m, s⟩
      · exact Or.inl rfl
      · simp only
        split_ifs with hok hdiff
        · exact Or.inr (find_best_match_mem sim pages segments threshold
            (pyStrip tb.text) page_num m s hfind)
        · exact Or.inl rfl
        · exact Or.inl rfl
  · intro m s hfind hlt
    rw [correct_text_block]
    split_ifs with hblank
    · rfl
    · rw [hfind]
      rcases m with _ | m
    
      · rfl
      · simp only
        rw [if_neg (by rintro ⟨h1, h2⟩; exact absurd h2 (not_le.mpr hlt))]

theorem char_advance_eq_amended (c : Char) (s : ℚ) :
    char_advance c s = amended_char_advance c s := by
  rw [char_advance, amended_char_advance]
  cases hcjk : isCJK c <;> cases ha : pyIsAlpha c <;> cases hd : pyIsDigit c <;>
    simp [pt_to_emu]

theorem estimate_width_foldl (s : ℚ) :
    ∀ (l : List Char) (a : ℚ),
      l.foldl (fun w c => w + char_advance c s) a
        = a + (l.map (fun c => amended_char_advance c s)).sum := by
  intro l
  induction l with
  | nil => intro a; simp
  | cons c cs ih =>
    intro a
    rw [List.foldl_cons, ih, List.map_cons, List.sum_cons, char_advance_eq_amended]
    ring

/-- C8 (amended): the emitter's width estimate charges CJK characters at
1.0× the font size, any alphabetic character (Unicode letters, not merely
Latin) and digits at 0.55×, and other characters at 0.4× (in EMU), and the
fit rule keeps the assigned size when the estimate does not exceed the box
width, otherwise shrinking by box/estimate with the 5 % safety margin and
the 8 pt floor: the source computation coincides with that rule on every
text, box width and assigned size. -/
theorem C8_font_fit_refines (text : String) (bbox_width_emu : Nat) (original : Nat) :
    estimate_text_width text (original : ℚ)
        = amended_estimate_text_width text (original : ℚ)
    ∧ calculate_optimal_font_size text bbox_width_emu original
        = amended_font_fit text bbox_width_emu original := by
  have hw : estimate_text_width text (original : ℚ)
      = amended_estimate_text_width text (original : ℚ) := by
    rw [estimate_text_width, amended_estimate_text_width, estimate_width_foldl]
    ring
  refine ⟨hw, ?_⟩
  rw [calculate_optimal_font_size, amended_font_fit, hw]

/-- C8 counterexample: the Greek letter `α` is not a Latin letter, so the
claim's rule charges it 0.4× (50800 EMU at size 10), but Python's
`isalpha` holds for it and the code charges 0.55× (69850 EMU) — the
claim's per-character advance table does not match the code on non-Latin
letters. -/
theorem C8_counterexample :
    estimate_text_width "α" 10 = 69850
    ∧ spec_estimate_text_width "α" 10 = 50800
    ∧ estimate_text_width "α" 10 ≠ spec_estimate_text_width "α" 10 := by
  have hd : ("α" : String).data = [Char.ofNat 945] := rfl
  have h1 : isCJK (Char.ofNat 945) = false := by decide
  have h2 : pyIsAlpha (Char.ofNat 945) = true := by decide
  have h3 : ((0x41 ≤ (Char.ofNat 945).toNat && (Char.ofNat 945).toNat ≤ 0x5a)
      || (0x61 ≤ (Char.ofNat 945).toNat && (Char.ofNat 945).toNat ≤ 0x7a)
      || pyIsDigit (Char.ofNat 945)) = false := by decide
  refine ⟨?_, ?_, ?_⟩
  · rw [estimate_text_width, hd]
    simp only [List.foldl_cons, List.foldl_nil, char_advance, h1, h2]
    norm_num [pt_to_emu]
  · rw [spec_estimate_text_width, hd]
    simp only [List.map_cons, List.map_nil, List.sum_cons, List.sum_nil,
      spec_char_advance, h1, h3]
    norm_num
  · rw [estimate_text_width, spec_estimate_text_width, hd]
    simp only [List.foldl_cons, List.foldl_nil, List.map_cons, List.map_nil,
      List.sum_cons, List.sum_nil, char_advance, spec_char_advance, h1, h2, h3]
    norm_num [pt_to_emu]

theorem process_error_of_slide_error (env : DeckEnv) (j : Nat) (e : String)
    (h : slide_error env j = some e) :
    process_single_image env j = Except.error e := by
  rw [slide_error] at h
  rw [process_single_image]
  by_cases hok : env.imageOk j = true
  · rw [if_pos hok] at h
    rw [if_neg (by simp [hok])]
    rcases hocr : env.ocr j with e2 | blocks
    · rw [hocr] at h
      simp only [Option.some.injEq] at h
      rw [← h]
    · rw [hocr] at h
      exact absurd h (by simp)
  · rw [if_neg hok] at h
    exact absurd h (by simp)

theorem process_ok_of_no_error (env : DeckEnv) (j : Nat)
    (h : slide_error env j = none) :
    ∃ v, process_single_image env j = Except.ok v := by
  rw [slide_error] at h
  rw [process_single_image]
  by_cases hok : env.imageOk j = true
  · rw [if_pos hok] at h
    rw [if_neg (by simp [hok])]
    rcases hocr : env.ocr j with e2 | blocks
    · rw [hocr] at h
      exact absurd h (by simp)
    · exact ⟨_, rfl⟩
  · simp only [Bool.not_eq_true] at hok
    rw [if_pos hok]
    exact ⟨none, rfl⟩

theorem deck_loop_error (env : DeckEnv) (i : Nat) (e : String)
    (herr : slide_error env i = some e) :
    ∀ (m s : Nat) (acc : List SlideData × Nat),
      s ≤ i → i < s + m →
      (∀ j, s ≤ j → j < i → slide_error env j = none) →
      deck_loop env (List.range' s m) acc = Except.error e := by
  intro m
  induction m with
  | zero => intro s acc h1 h2 h3; omega
  | succ m ih =>
    intro s acc h1 h2 h3
    simp only [List.range']
    rw [deck_loop]
    by_cases hsi : s = i
    · subst hsi
      rw [process_error_of_slide_error env s e herr]
    · obtain ⟨v, hv⟩ := process_ok_of_no_error env s (h3 s le_rfl (by omega))
      rw [hv]
      rcases v with _ | sd
      · exact ih (s + 1) acc (by omega) (by omega) (fun j hj1 hj2 => h3 j (by omega) hj2)
      · exact ih (s + 1) _ (by omega) (by omega) (fun j hj1 hj2 => h3 j (by omega) hj2)

theorem deck_loop_ok (env : DeckEnv) :
    ∀ (m s : Nat) (acc : List SlideData × Nat),
      (∀ j, s ≤ j → j < s + m → slide_error env j = none) →
      ∃ acc2, deck_loop env (List.range' s m) acc = Except.ok acc2 := by
  intro m
  induction m with
  | zero => intro s acc h; exact ⟨acc, rfl⟩
  | succ m ih =>
    intro s acc h
    simp only [List.range']
    rw [deck_loop]
    obtain ⟨v, hv⟩ := process_ok_of_no_error env s (h s le_rfl (by omega))
    rw [hv]
    rcases v with _ | sd
    · exact ih (s + 1) acc (fun j hj1 hj2 => h j (by omega) (by omega))
    · exact ih (s + 1) _ (fun j hj1 hj2 => h j (by omega) (by omega))

/-- C1 (amended): when pages `1..i-1` process without raising and page `i`
raises an OCR exception (network/quota/API failure on an existing image),
the whole `convert_images` call raises that exception: the pages after `i`
are not processed, no `ConversionResult` and no deck are produced, and the
failing call is consulted exactly once (never retried).  The claim's
continue-with-zero-fragments behaviour does not exist in the source — see
`C1_counterexample`. -/
theorem C1_ocr_failure_aborts_deck (env : DeckEnv) (n i : Nat) (e : String)
    (h1 : 1 ≤ i) (h2 : i ≤ n)
    (hok : ∀ j, 1 ≤ j → j < i → slide_error env j = none)
    (herr : slide_error env i = some e) :
    convert_images env n = Except.error e := by
  rw [convert_images,
    deck_loop_error env i e herr n 1 ([], 0) h1 (by omega) (fun j hj1 hj2 => hok j hj1 hj2)]

/-- Witness for C1 (amended) on the concrete two-page deck whose first
page's OCR raises a quota error. -/
theorem C1_ocr_failure_aborts_deck_witness :
    convert_images c1env 2 = Except.error "quota" :=
  C1_ocr_failure_aborts_deck c1env 2 1 "quota" le_rfl (by omega)
    (fun j hj1 hj2 => absurd (lt_of_le_of_lt hj1 hj2) (lt_irrefl 1)) (by decide)

/-- C1 counterexample: on the two-page deck `c1env` the OCR failure on
page 1 makes `convert_images` raise instead of completing — even though
page 2 alone would process fine — so the failing slide does not "proceed
with zero fragments" and the remaining slides are not processed. -/
theorem C1_counterexample :
    convert_images c1env 2 = Except.error "quota"
    ∧ process_single_image c1env 2
        = Except.ok (some { index := 2, width := 1280, height := 720,
                            text_blocks := [c4block] }) := by
  exact ⟨by decide, by decide⟩

/-- C2 (amended): `convert_images` never returns a failed
`ConversionResult` — a returned result always has `success = true` — and
when every page processes without raising but the save step fails, the
call raises the save exception instead of returning any result; in the
model the output file exists only when the save step returned, so no
partial-deck file is produced. -/
theorem C2_save_failure_raises (env : DeckEnv) (n : Nat) (e : String) :
    (∀ r, convert_images env n = Except.ok r → r.success = true)
    ∧ ((∀ j, 1 ≤ j → j ≤ n → slide_error env j = none) →
        env.save = Except.error e → convert_images env n = Except.error e) := by
  constructor
  · intro r h
    rw [convert_images] at h
    rcases hd : deck_loop env (List.range' 1 n) ([], 0) with e2 | acc
    · rw [hd] at h
      exact absurd h (by simp)
    · rw [hd] at h
      rcases hs : env.save with e2 | u
      · rw [hs] at h
        exact absurd h (by simp)
      · rw [hs] at h
        simp only [Except.ok.injEq] at h
        rw [← h]
  · intro hall hsave
    obtain ⟨acc2, hacc⟩ := deck_loop_ok env n 1 ([], 0)
      (fun j hj1 hj2 => hall j hj1 (by omega))
    rw [convert_images, hacc, hsave]

/-- Witness for C2 (amended) on the concrete one-page deck whose save step
fails with a disk error. -/
theorem C2_save_failure_raises_witness :
    convert_images c2env 1 = Except.error "disk full" :=
  (C2_save_failure_raises c2env 1 "disk full").2
    (fun j hj1 hj2 => by
      have hj : j = 1 := by omega
      subst hj
      decide)
    rfl

/-- C2 counterexample: on `c2env` the save failure propagates as an
exception — `convert_images` returns no `ConversionResult` at all, so in
particular it does not return one with `success = false` and an error
message. -/
theorem C2_counterexample :
    convert_images c2env 1 = Except.error "disk full"
    ∧ convert_images c2env 1 ≠ Except.ok c2badresult := by
  exact ⟨by decide, by decide⟩

/-- Witness for C6: with no candidates at all and threshold 0.5, the
corrector returns the concrete block unchanged through the below-threshold
clause. -/
theorem C6_corrector_no_invention_witness :
    ((correct_text_block (fun _ _ => 0) (fun _ => none) [] (mkRat 1 2) c5block
        (some 1)).text = c5block.text
      ∨ (correct_text_block (fun _ _ => 0) (fun _ => none) [] (mkRat 1 2) c5block
          (some 1)).text ∈ candidate_pool (fun _ => none) [] (some 1))
    ∧ correct_text_block (fun _ _ => 0) (fun _ => none) [] (mkRat 1 2) c5block
        (some 1) = c5block :=
  ⟨(C6_corrector_no_invention (fun _ _ => 0) (fun _ => none) [] (mkRat 1 2) c5block
      (some 1)).1,
   (C6_corrector_no_invention (fun _ _ => 0) (fun _ => none) [] (mkRat 1 2) c5block
      (some 1)).2 none 0 (by decide) (by decide)⟩
